import Mathlib

/-!
Verification of the core of `tui-with-ink-effect-atom`, a terminal chat
client.  The development shallowly embeds:

* the cursor-aware text buffer and its mutations (`insertChar`,
  `deleteChar`, `moveCursor`, `clearTextBuffer` from `src/App.tsx`),
* the keystroke dispatch cascade (`handleKeyEventAtom` from `src/App.tsx`),
* the message channel and the conversation engine
  (`ChatServiceLive` / `sendMessage` from `src/ChatService.ts`).

Lines of text are modelled as lists of characters, so the JavaScript
`slice`/`splice` string and array operations become `List.take`,
`List.drop`, `List.set` and `List.eraseIdx`.  `Math.random()` is modelled
as an exact rational in `[0, 1)`.
-/

/-- Cursor position inside the text buffer (`cursor: {row, column}`). -/
structure Cursor where
  row : Nat
  column : Nat
deriving DecidableEq, Repr

/-- The editable multi-line text buffer (`TextBuffer` in `src/App.tsx`):
a list of lines plus a cursor. -/
structure TextBuffer where
  lines : List (List Char)
  cursor : Cursor
deriving DecidableEq, Repr

/-- Initial buffer: `{ lines: [""], cursor: { row: 0, column: 0 } }`. -/
def initialBuffer : TextBuffer := ⟨[[]], ⟨0, 0⟩⟩

/-- Embedding of `insertCharAtom`: splice `char` into the current line at
the cursor column and advance the column by one.  `lines[cursor.row]!`
becomes `getD` and `newLines[cursor.row] = newLine` becomes `List.set`. -/
def insertChar (state : TextBuffer) (char : List Char) : TextBuffer :=
  let line := state.lines.getD state.cursor.row []
  let newLine :=
    line.take state.cursor.column ++ char ++ line.drop state.cursor.column
  ⟨state.lines.set state.cursor.row newLine,
   ⟨state.cursor.row, state.cursor.column + 1⟩⟩

/-- The column offset of a cursor move: `direction === "left" ? -1 : 1`. -/
inductive Direction where
  | left
  | right
deriving DecidableEq, Repr

/-- `columnModifier` from `moveCursorAtom`. -/
def dirModifier : Direction → Int
  | .left => -1
  | .right => 1

/-- Embedding of `moveCursorAtom`: compute the future column; if it is
negative or exceeds the length of the LAST line (`state.lines.at(-1)`),
return the state unchanged, otherwise update only the column.  When
`lines` is empty, `?? Infinity` disables the upper bound, so only the
lower bound applies. -/
def moveCursor (state : TextBuffer) (direction : Direction) : TextBuffer :=
  let futureColumn : Int := (state.cursor.column : Int) + dirModifier direction
  match state.lines.getLast? with
  | some lastLine =>
      if futureColumn < 0 ∨ futureColumn > (lastLine.length : Int) then state
      else ⟨state.lines, ⟨state.cursor.row, futureColumn.toNat⟩⟩
  | none =>
      if futureColumn < 0 then state
      else ⟨state.lines, ⟨state.cursor.row, futureColumn.toNat⟩⟩

/-- Embedding of `deleteCharAtom`: if the column is zero and the row is
positive, merge the current line onto the previous one and splice the
current line out (`newLines.splice(cursor.row, 1)` is `List.eraseIdx`);
if the column is positive, drop the character before the cursor
(`line.slice(0, c-1) + line.slice(c)`); otherwise do nothing. -/
def deleteChar (state : TextBuffer) : TextBuffer :=
  if state.cursor.column = 0 then
    if state.cursor.row > 0 then
      let prevLine := state.lines.getD (state.cursor.row - 1) []
      let currLine := state.lines.getD state.cursor.row []
      let newLines :=
        (state.lines.set (state.cursor.row - 1) (prevLine ++ currLine)).eraseIdx
          state.cursor.row
      ⟨newLines, ⟨state.cursor.row - 1, prevLine.length⟩⟩
    else state
  else
    let line := state.lines.getD state.cursor.row []
    let newLine :=
      line.take (state.cursor.column - 1) ++ line.drop state.cursor.column
    ⟨state.lines.set state.cursor.row newLine,
     ⟨state.cursor.row, state.cursor.column - 1⟩⟩

/-- Embedding of `clearTextBufferAtom`: reset to the initial buffer. -/
def clearTextBuffer (_state : TextBuffer) : TextBuffer := initialBuffer

/-- `textBufferStringAtom`: the lines joined by newline characters. -/
def toText (state : TextBuffer) : List Char :=
  List.intercalate ['\n'] state.lines

/-- Whitespace recognised by the embedding of JavaScript `trim`. -/
def isWhitespaceChar (c : Char) : Bool :=
  c = ' ' ∨ c = '\t' ∨ c = '\n' ∨ c = '\r'

/-- Embedding of `String.prototype.trim`: drop whitespace from both ends. -/
def trimChars (s : List Char) : List Char :=
  ((s.dropWhile isWhitespaceChar).reverse.dropWhile isWhitespaceChar).reverse

/-- `textBufferIsEmptyAtom`: `text.trim().length === 0`. -/
def isEmptyBuffer (state : TextBuffer) : Bool :=
  (trimChars (toText state)).length = 0

/-- The buffer operations quantified over by the buffer invariant:
insertion of a single printable character, backward deletion, cursor
movement. -/
inductive BufOp where
  | ins (c : Char)
  | del
  | move (d : Direction)
deriving DecidableEq, Repr

/-- Apply one buffer operation. -/
def applyBufOp (state : TextBuffer) : BufOp → TextBuffer
  | .ins c => insertChar state [c]
  | .del => deleteChar state
  | .move d => moveCursor state d

/-- Run a sequence of buffer operations from the initial buffer. -/
def runBufOps (ops : List BufOp) : TextBuffer :=
  ops.foldl applyBufOp initialBuffer

/-- A keypress as normalised by `KeyboardProvider` (`interface Key`). -/
structure Key where
  name : String
  sequence : List Char
  ctrl : Bool
  meta : Bool
  shift : Bool
deriving DecidableEq, Repr

/-- The input mode (`inputModeAtom`): normal editing or the help screen. -/
inductive Mode where
  | normal
  | help
deriving DecidableEq, Repr

/-- Message roles (`MessageTypeSchema` in `src/schemas.ts`). -/
inductive MessageType where
  | user
  | assistant
  | system
deriving DecidableEq, Repr

/-- A chat message (`MessageSchema` in `src/schemas.ts`).  Content is a
list of characters; the timestamp is a numeric instant. -/
structure Message where
  id : String
  type : MessageType
  content : List Char
  timestamp : Nat
deriving DecidableEq, Repr

/-- The message channel (`Queue.unbounded<Message>` in
`src/ChatService.ts`): an unbounded FIFO buffer plus a shutdown flag. -/
structure Channel where
  buffer : List Message
  isShutdown : Bool
deriving DecidableEq, Repr

/-- The channel as created by `ChatServiceLive`: empty and open. -/
def initialChannel : Channel := ⟨[], false⟩

/-- Failure conditions of the messaging interface (spec taxonomy). -/
inductive ChatError where
  | emptyInput
  | channelClosed
deriving DecidableEq, Repr

/-- `Queue.offer`: append to the tail; after `Queue.shutdown` the offer is
rejected with the `ChannelClosed` condition. -/
def offer (ch : Channel) (m : Message) : Except ChatError Channel :=
  if ch.isShutdown then .error .channelClosed
  else .ok ⟨ch.buffer ++ [m], ch.isShutdown⟩

/-- Offer a whole sequence of messages in order. -/
def offerAll (ms : List Message) (ch : Channel) : Except ChatError Channel :=
  match ms with
  | [] => .ok ch
  | m :: rest =>
      match offer ch m with
      | .error e => .error e
      | .ok ch2 => offerAll rest ch2

/-- Drain the buffered messages one at a time, front first, mirroring
consumption of `Stream.fromQueue(messageQueue)`. -/
def drainList : List Message → List Message
  | [] => []
  | m :: rest => m :: drainList rest

/-- Consume the channel: the sequence of messages the stream yields. -/
def consumeAll (ch : Channel) : List Message :=
  drainList ch.buffer

/-- The fixed candidate replies in `sendMessage` (`const responses`). -/
def responses : List (List Char) :=
  [ ("That\x27s interesting! Tell me more.").toList,
    ("I understand what you mean.").toList,
    ("How does that make you feel?").toList,
    ("Fascinating perspective!").toList,
    ("Could you elaborate on that?").toList ]

/-- `Math.floor(Math.random() * responses.length)` with `Math.random()`
modelled as an exact rational `r`. -/
def replyIndex (r : ℚ) : Nat :=
  (Int.floor (r * (responses.length : ℚ))).toNat

/-- The user message built by `sendMessage`. -/
def mkUserMessage (uid : String) (content : List Char) (t : Nat) : Message :=
  ⟨uid, .user, content, t⟩

/-- The assistant message built by `sendMessage`:
`responses[Math.floor(Math.random() * responses.length)] ?? ""`. -/
def mkAssistantMessage (uid : String) (r : ℚ) (t : Nat) : Message :=
  ⟨uid, .assistant, ((responses.get? (replyIndex r)).getD []), t⟩

/-- The events performed by one `sendMessage` call, in program order:
offer the user message, sleep 500 milliseconds, offer the assistant
message. -/
inductive ChatEvent where
  | offerMsg (m : Message)
  | sleep (millis : Nat)
deriving DecidableEq, Repr

/-- The straight-line body of `ChatServiceLive.sendMessage` as its event
trace.  `uidU`/`uidA` are the two `crypto.randomUUID()` results, `tU`/`tA`
the two `Date.now()` readings and `r` the `Math.random()` draw. -/
def sendMessageEvents (content : List Char) (uidU uidA : String)
    (tU tA : Nat) (r : ℚ) : List ChatEvent :=
  [ .offerMsg (mkUserMessage uidU content tU),
    .sleep 500,
    .offerMsg (mkAssistantMessage uidA r tA) ]

/-- Run a trace of chat events against a channel: offers go through
`offer`, sleeps leave the channel unchanged. -/
def runEvents (events : List ChatEvent) (ch : Channel) :
    Except ChatError Channel :=
  match events with
  | [] => .ok ch
  | .offerMsg m :: rest =>
      match offer ch m with
      | .error e => .error e
      | .ok ch2 => runEvents rest ch2
  | .sleep _ :: rest => runEvents rest ch

/-- `sendMessage` as a channel transformer: run its event trace. -/
def sendMessage (content : List Char) (uidU uidA : String) (tU tA : Nat)
    (r : ℚ) (ch : Channel) : Except ChatError Channel :=
  runEvents (sendMessageEvents content uidU uidA tU tA r) ch

/-- The reactive state touched by `handleKeyEventAtom`: the input mode,
the text buffer, the streaming flag, and the log of texts handed to
`sendMessageAtom` on submission. -/
structure AppState where
  mode : Mode
  buffer : TextBuffer
  streaming : Bool
  sent : List (List Char)
deriving DecidableEq, Repr

/-- The session state at startup. -/
def initialAppState : AppState :=
  ⟨.normal, initialBuffer, false, []⟩

/-- Result of handling one key: the process exits, or the session
continues in a new state. -/
inductive StepResult where
  | exited
  | next (s : AppState)
deriving DecidableEq, Repr

/-- Embedding of the `Match.value(key).pipe(...)` cascade of
`handleKeyEventAtom`, rule by rule in source order: Ctrl+C exits;
Ctrl+A toggles help; help mode swallows everything else; return submits
the buffer text unless the buffer is blank; backspace deletes; Ctrl+U
clears; left/right move the cursor; a single-character sequence without
ctrl/meta is inserted; anything else is a no-op. -/
def handleKeyEvent (key : Key) (s : AppState) : StepResult :=
  if key.ctrl ∧ key.name = "c" then .exited
  else if key.ctrl ∧ key.name = "a" then
    .next { s with mode := if s.mode = .help then .normal else .help }
  else if s.mode = .help then .next s
  else if key.name = "return" then
    if isEmptyBuffer s.buffer then .next s
    else
      .next { s with
        streaming := true,
        sent := s.sent ++ [toText s.buffer],
        buffer := initialBuffer }
  else if key.name = "backspace" then
    .next { s with buffer := deleteChar s.buffer }
  else if key.ctrl ∧ key.name = "u" then
    .next { s with buffer := clearTextBuffer s.buffer }
  else if key.name = "left" then
    .next { s with buffer := moveCursor s.buffer .left }
  else if key.name = "right" then
    .next { s with buffer := moveCursor s.buffer .right }
  else if key.sequence.length = 1 ∧ ¬ key.ctrl ∧ ¬ key.meta then
    .next { s with buffer := insertChar s.buffer key.sequence }
  else .next s

/-- Run a sequence of key events; once the process has exited, later
keys are not handled. -/
def runKeys (keys : List Key) (s : AppState) : StepResult :=
  match keys with
  | [] => .next s
  | k :: rest =>
      match handleKeyEvent k s with
      | .exited => .exited
      | .next s2 => runKeys rest s2

/-- States reachable by the three buffer operations from the initial
buffer: a single line with the cursor on it, column within the line. -/
def GoodBuf (b : TextBuffer) : Prop :=
  ∃ l, b.lines = [l] ∧ b.cursor.row = 0 ∧ b.cursor.column ≤ l.length

theorem goodBuf_initial : GoodBuf initialBuffer :=
  ⟨[], rfl, rfl, by simp [initialBuffer]⟩

theorem goodBuf_insertChar {b : TextBuffer} (c : Char) (h : GoodBuf b) :
    GoodBuf (insertChar b [c]) := by
  obtain ⟨lines, row, col⟩ := b
  obtain ⟨l, hl, hr, hc⟩ := h
  simp only at hl hr hc
  subst hl; subst hr
  refine ⟨l.take col ++ [c] ++ l.drop col, ?_, ?_, ?_⟩
  · simp [insertChar]
  · simp [insertChar]
  · simp [insertChar]
    omega

theorem goodBuf_deleteChar {b : TextBuffer} (h : GoodBuf b) :
    GoodBuf (deleteChar b) := by
  obtain ⟨lines, row, col⟩ := b
  obtain ⟨l, hl, hr, hc⟩ := h
  simp only at hl hr hc
  subst hl; subst hr
  rcases col with _ | k
  · exact ⟨l, by simp [deleteChar], by simp [deleteChar], by simp [deleteChar]⟩
  · refine ⟨l.take k ++ l.drop (k + 1), ?_, ?_, ?_⟩
    · simp [deleteChar]
    · simp [deleteChar]
    · simp [deleteChar]
      omega

theorem goodBuf_moveCursor {b : TextBuffer} (d : Direction) (h : GoodBuf b) :
    GoodBuf (moveCursor b d) := by
  obtain ⟨lines, row, col⟩ := b
  obtain ⟨l, hl, hr, hc⟩ := h
  simp only at hl hr hc
  subst hl; subst hr
  simp only [moveCursor, List.getLast?_singleton]
  split
  · exact ⟨l, rfl, rfl, hc⟩
  · refine ⟨l, rfl, rfl, ?_⟩
    simp only [Cursor.column]
    cases d
    all_goals simp_all [dirModifier]
    all_goals omega

theorem goodBuf_applyBufOp {b : TextBuffer} (op : BufOp) (h : GoodBuf b) :
    GoodBuf (applyBufOp b op) := by
  cases op with
  | ins c => exact goodBuf_insertChar c h
  | del => exact goodBuf_deleteChar h
  | move d => exact goodBuf_moveCursor d h

theorem goodBuf_foldl (ops : List BufOp) (b : TextBuffer) (h : GoodBuf b) :
    GoodBuf (ops.foldl applyBufOp b) := by
  induction ops generalizing b with
  | nil => exact h
  | cons op rest ih => exact ih _ (goodBuf_applyBufOp op h)

/-- C1: for every sequence of insert, deleteBackward and moveCursor
operations applied from the initial buffer, the final state (hence every
intermediate state, since every prefix of operations is also such a
sequence) has a non-empty line list, `cursor.row` inside `[0, len lines)`
and `cursor.column` inside `[0, len (lines[cursor.row])]`. -/
theorem runBufOps_cursor_in_bounds (ops : List BufOp) :
    0 < (runBufOps ops).lines.length ∧
    (runBufOps ops).cursor.row < (runBufOps ops).lines.length ∧
    (runBufOps ops).cursor.column ≤
      ((runBufOps ops).lines.getD (runBufOps ops).cursor.row []).length := by
  obtain ⟨l, hl, hr, hc⟩ := goodBuf_foldl ops initialBuffer goodBuf_initial
  unfold runBufOps
  rw [hl, hr]
  simpa using hc

/-- C2: `moveCursor` never touches the line list or the cursor row; when
the requested column (current column plus the direction offset) lies in
`[0, length of the LAST line]` the column becomes exactly that value, and
otherwise the whole buffer is left unchanged. -/
theorem moveCursor_clamps_to_last_line (s : TextBuffer) (d : Direction)
    (h : s.lines ≠ []) :
    (moveCursor s d).lines = s.lines ∧
    (moveCursor s d).cursor.row = s.cursor.row ∧
    (((s.cursor.column : Int) + dirModifier d < 0 ∨
        (s.cursor.column : Int) + dirModifier d >
          ((s.lines.getLastD []).length : Int)) →
      moveCursor s d = s) ∧
    (0 ≤ (s.cursor.column : Int) + dirModifier d →
      (s.cursor.column : Int) + dirModifier d ≤
        ((s.lines.getLastD []).length : Int) →
      ((moveCursor s d).cursor.column : Int) =
        (s.cursor.column : Int) + dirModifier d) := by
  obtain ⟨y, hy⟩ := Option.isSome_iff_exists.mp (List.getLast?_isSome.mpr h)
  have hD : s.lines.getLastD [] = y := by
    rw [List.getLastD_eq_getLast?, hy]
    rfl
  rw [hD]
  by_cases hg : (s.cursor.column : Int) + dirModifier d < 0 ∨
      (s.cursor.column : Int) + dirModifier d > (y.length : Int)
  · have hmc : moveCursor s d = s := by
      simp only [moveCursor, hy]
      rw [if_pos hg]
    rw [hmc]
    refine ⟨rfl, rfl, fun _ => rfl, fun h1 h2 => ?_⟩
    exfalso
    omega
  · have hmc : moveCursor s d =
        ⟨s.lines, ⟨s.cursor.row,
          ((s.cursor.column : Int) + dirModifier d).toNat⟩⟩ := by
      simp only [moveCursor, hy]
      rw [if_neg hg]
    rw [hmc]
    refine ⟨rfl, rfl, fun hcon => absurd hcon hg, fun h1 h2 => ?_⟩
    simp only []
    omega

/-- Witness: on the single-line buffer `"ab"` with the cursor at column
one, moving right is in range and lands on column two. -/
theorem moveCursor_clamps_to_last_line_witness :
    (moveCursor ⟨[['a', 'b']], ⟨0, 1⟩⟩ .right).lines = [['a', 'b']] ∧
    (moveCursor ⟨[['a', 'b']], ⟨0, 1⟩⟩ .right).cursor.row = 0 ∧
    ((((1 : Nat) : Int) + dirModifier .right < 0 ∨
        ((1 : Nat) : Int) + dirModifier .right >
          ((([['a', 'b']] : List (List Char)).getLastD []).length : Int)) →
      moveCursor ⟨[['a', 'b']], ⟨0, 1⟩⟩ .right = ⟨[['a', 'b']], ⟨0, 1⟩⟩) ∧
    (0 ≤ ((1 : Nat) : Int) + dirModifier .right →
      ((1 : Nat) : Int) + dirModifier .right ≤
        ((([['a', 'b']] : List (List Char)).getLastD []).length : Int) →
      ((moveCursor ⟨[['a', 'b']], ⟨0, 1⟩⟩ .right).cursor.column : Int) =
        ((1 : Nat) : Int) + dirModifier .right) :=
  moveCursor_clamps_to_last_line ⟨[['a', 'b']], ⟨0, 1⟩⟩ .right (by decide)

theorem eraseIdx_set_pred {α : Type} (k : Nat) (l : List α) (v : α)
    (h : k + 1 < l.length) :
    (l.set k v).eraseIdx (k + 1) = l.take k ++ v :: l.drop (k + 2) := by
  induction k generalizing l with
  | zero =>
      match l, h with
      | a :: b :: t, _ => simp
  | succ k ih =>
      match l, h with
      | a :: t, h =>
        simp only [List.set_cons_succ, List.eraseIdx_cons_succ,
          List.take_succ_cons, List.drop_succ_cons]
        rw [ih t (by simpa using h)]
        simp

/-- C6: case analysis of `deleteBackward` on a well-formed buffer.  With
a positive column it erases the character at index `column - 1` of the
current line and decrements the column; with column zero and a positive
row it replaces the previous line by the concatenation of the previous
and current lines, removes the current line, and parks the cursor at the
end of the old previous line; with column zero on row zero it is a
no-op. -/
theorem deleteChar_case_analysis (b : TextBuffer)
    (hr : b.cursor.row < b.lines.length)
    (_hc : b.cursor.column ≤ (b.lines.getD b.cursor.row []).length) :
    (0 < b.cursor.column →
      deleteChar b =
        ⟨b.lines.set b.cursor.row
            ((b.lines.getD b.cursor.row []).eraseIdx (b.cursor.column - 1)),
         ⟨b.cursor.row, b.cursor.column - 1⟩⟩) ∧
    (b.cursor.column = 0 → 0 < b.cursor.row →
      deleteChar b =
        ⟨b.lines.take (b.cursor.row - 1) ++
            (b.lines.getD (b.cursor.row - 1) [] ++
              b.lines.getD b.cursor.row []) ::
            b.lines.drop (b.cursor.row + 1),
         ⟨b.cursor.row - 1,
          (b.lines.getD (b.cursor.row - 1) []).length⟩⟩) ∧
    (b.cursor.column = 0 → b.cursor.row = 0 → deleteChar b = b) := by
  refine ⟨?_, ?_, ?_⟩
  · intro hpos
    have hc0 : ¬ b.cursor.column = 0 := by omega
    simp only [deleteChar, if_neg hc0]
    rw [List.eraseIdx_eq_take_drop_succ]
    have : b.cursor.column - 1 + 1 = b.cursor.column := by omega
    rw [this]
  · intro hc0 hrpos
    obtain ⟨k, hk⟩ : ∃ k, b.cursor.row = k + 1 := ⟨b.cursor.row - 1, by omega⟩
    simp only [deleteChar, if_pos hc0, if_pos hrpos]
    rw [hk]
    simp only [Nat.add_sub_cancel]
    rw [eraseIdx_set_pred k b.lines _ (by omega)]
  · intro hc0 hr0
    simp only [deleteChar, if_pos hc0, hr0]
    simp

/-- Witness: deleting backward at `(row 1, column 0)` of the two-line
buffer `["a", "bc"]` merges the lines into `["abc"]` with the cursor at
`(0, 1)`. -/
theorem deleteChar_case_analysis_witness :
    (0 < (0 : Nat) →
      deleteChar ⟨[['a'], ['b', 'c']], ⟨1, 0⟩⟩ =
        ⟨([['a'], ['b', 'c']] : List (List Char)).set 1
            ((([['a'], ['b', 'c']] : List (List Char)).getD 1 []).eraseIdx
              (0 - 1)),
         ⟨1, 0 - 1⟩⟩) ∧
    ((0 : Nat) = 0 → 0 < (1 : Nat) →
      deleteChar ⟨[['a'], ['b', 'c']], ⟨1, 0⟩⟩ =
        ⟨([['a'], ['b', 'c']] : List (List Char)).take (1 - 1) ++
            (([['a'], ['b', 'c']] : List (List Char)).getD (1 - 1) [] ++
              ([['a'], ['b', 'c']] : List (List Char)).getD 1 []) ::
            ([['a'], ['b', 'c']] : List (List Char)).drop (1 + 1),
         ⟨1 - 1,
          ((([['a'], ['b', 'c']] : List (List Char)).getD (1 - 1) []).length)⟩⟩) ∧
    ((0 : Nat) = 0 → (1 : Nat) = 0 →
      deleteChar ⟨[['a'], ['b', 'c']], ⟨1, 0⟩⟩ =
        ⟨[['a'], ['b', 'c']], ⟨1, 0⟩⟩) :=
  deleteChar_case_analysis ⟨[['a'], ['b', 'c']], ⟨1, 0⟩⟩ (by decide) (by decide)


theorem drainList_eq (l : List Message) : drainList l = l := by
  induction l with
  | nil => rfl
  | cons m rest ih => simp [drainList, ih]

theorem offerAll_open (ms : List Message) (buf : List Message) :
    offerAll ms ⟨buf, false⟩ = .ok ⟨buf ++ ms, false⟩ := by
  induction ms generalizing buf with
  | nil => simp [offerAll]
  | cons m rest ih => simp [offerAll, offer, ih]

/-- C4: offering any sequence of messages to the open channel succeeds,
and consuming the channel yields exactly that sequence, in order, with
no duplication and no loss. -/
theorem channel_fifo_order (ms : List Message) :
    (offerAll ms initialChannel).map consumeAll = .ok ms := by
  rw [show initialChannel = ⟨[], false⟩ from rfl, offerAll_open]
  simp [Except.map, consumeAll, drainList_eq]

/-- C5: in the event trace of one `sendMessage` call the user message is
offered strictly before the 500 ms simulated-latency sleep, and the
assistant reply strictly after it; consequently, run against any open
channel, the call appends the user message and then the reply, so the
reply never precedes its own user message in the channel. -/
theorem user_message_precedes_reply (content : List Char)
    (uidU uidA : String) (tU tA : Nat) (r : ℚ) (ch : Channel)
    (hopen : ch.isShutdown = false) :
    ∃ i j k : Nat, i < j ∧ j < k ∧
      (sendMessageEvents content uidU uidA tU tA r).get? i =
        some (.offerMsg (mkUserMessage uidU content tU)) ∧
      (mkUserMessage uidU content tU).type = .user ∧
      (sendMessageEvents content uidU uidA tU tA r).get? j =
        some (.sleep 500) ∧
      (sendMessageEvents content uidU uidA tU tA r).get? k =
        some (.offerMsg (mkAssistantMessage uidA r tA)) ∧
      (mkAssistantMessage uidA r tA).type = .assistant ∧
      sendMessage content uidU uidA tU tA r ch =
        .ok ⟨ch.buffer ++ [mkUserMessage uidU content tU,
          mkAssistantMessage uidA r tA], false⟩ := by
  obtain ⟨buf, sd⟩ := ch
  simp only at hopen
  subst hopen
  refine ⟨0, 1, 2, by omega, by omega, rfl, rfl, rfl, rfl, rfl, ?_⟩
  simp [sendMessage, sendMessageEvents, runEvents, offer]

/-- Witness: one concrete `sendMessage` call on the fresh open channel. -/
theorem user_message_precedes_reply_witness :
    ∃ i j k : Nat, i < j ∧ j < k ∧
      (sendMessageEvents ['h', 'i'] "uid-u" "uid-a" 3 503 (1/2)).get? i =
        some (.offerMsg (mkUserMessage "uid-u" ['h', 'i'] 3)) ∧
      (mkUserMessage "uid-u" ['h', 'i'] 3).type = .user ∧
      (sendMessageEvents ['h', 'i'] "uid-u" "uid-a" 3 503 (1/2)).get? j =
        some (.sleep 500) ∧
      (sendMessageEvents ['h', 'i'] "uid-u" "uid-a" 3 503 (1/2)).get? k =
        some (.offerMsg (mkAssistantMessage "uid-a" (1/2) 503)) ∧
      (mkAssistantMessage "uid-a" (1/2) 503).type = .assistant ∧
      sendMessage ['h', 'i'] "uid-u" "uid-a" 3 503 (1/2) initialChannel =
        .ok ⟨initialChannel.buffer ++ [mkUserMessage "uid-u" ['h', 'i'] 3,
          mkAssistantMessage "uid-a" (1/2) 503], false⟩ :=
  user_message_precedes_reply ['h', 'i'] "uid-u" "uid-a" 3 503 (1/2)
    initialChannel rfl

theorem responses_index_facts : ∀ k : Nat, k < 5 →
    responses.get? k ≠ none ∧
    ((responses.get? k).getD []) ∈ responses ∧
    ((responses.get? k).getD []) ≠ [] := by decide

/-- C10: for every random draw in `[0, 1)` the reply index
`floor(r * 5)` is a valid index into the five candidate replies, so the
empty-string fallback of the indexing expression is never used and the
assistant content is one of the five fixed non-empty strings. -/
theorem reply_content_from_responses (uidA : String) (t : Nat) (r : ℚ)
    (h0 : 0 ≤ r) (h1 : r < 1) :
    replyIndex r < responses.length ∧
    responses.get? (replyIndex r) ≠ none ∧
    (mkAssistantMessage uidA r t).content ∈ responses ∧
    (mkAssistantMessage uidA r t).content ≠ [] := by
  have hlen : responses.length = 5 := rfl
  have hmul : r * (responses.length : ℚ) < 5 := by
    rw [hlen]
    push_cast
    nlinarith
  have hflo : Int.floor (r * (responses.length : ℚ)) < 5 :=
    Int.floor_lt.mpr (by exact_mod_cast hmul)
  have hnn : 0 ≤ Int.floor (r * (responses.length : ℚ)) :=
    Int.floor_nonneg.mpr (by positivity)
  have hlt : replyIndex r < 5 := by
    unfold replyIndex
    omega
  have hfacts := responses_index_facts (replyIndex r) hlt
  refine ⟨by omega, hfacts.1, ?_, ?_⟩
  · simpa [mkAssistantMessage] using hfacts.2.1
  · simpa [mkAssistantMessage] using hfacts.2.2

/-- Witness: the draw one half selects reply index two. -/
theorem reply_content_from_responses_witness :
    replyIndex (1/2) < responses.length ∧
    responses.get? (replyIndex (1/2)) ≠ none ∧
    (mkAssistantMessage "uid-a" (1/2) 7).content ∈ responses ∧
    (mkAssistantMessage "uid-a" (1/2) 7).content ≠ [] :=
  reply_content_from_responses "uid-a" 7 (1/2) (by norm_num) (by norm_num)

/-- C3 counterexample: the text consisting of one space is blank, yet
`sendMessage` applied to it on the open channel succeeds — it offers a
blank user message and a reply — instead of failing with `EmptyInput`. -/
theorem blank_sendMessage_succeeds :
    trimChars [' '] = [] ∧
    sendMessage [' '] "uid-u" "uid-a" 0 500 0 initialChannel =
      .ok ⟨[mkUserMessage "uid-u" [' '] 0,
            mkAssistantMessage "uid-a" 0 500], false⟩ ∧
    sendMessage [' '] "uid-u" "uid-a" 0 500 0 initialChannel ≠
      Except.error ChatError.emptyInput := by
  have he : sendMessage [' '] "uid-u" "uid-a" 0 500 0 initialChannel =
      Except.ok ⟨[mkUserMessage "uid-u" [' '] 0,
        mkAssistantMessage "uid-a" 0 500], false⟩ := rfl
  refine ⟨rfl, he, ?_⟩
  rw [he]
  intro h
  exact Except.noConfusion h

/-- C3 amended: a blank submission is screened out at the key-dispatch
layer: in normal mode, pressing return with a blank buffer performs no
action at all — the buffer, mode and message log are unchanged and
nothing is handed to `sendMessage`.  `sendMessage` itself never checks
for blank input. -/
theorem blank_submit_not_issued (key : Key) (s : AppState)
    (hname : key.name = "return") (hmode : s.mode = .normal)
    (hblank : isEmptyBuffer s.buffer = true) :
    handleKeyEvent key s = .next s := by
  have h1 : ¬ (key.ctrl ∧ key.name = "c") := by simp [hname]
  have h2 : ¬ (key.ctrl ∧ key.name = "a") := by simp [hname]
  have h3 : ¬ s.mode = Mode.help := by simp [hmode]
  simp [handleKeyEvent, h1, h2, h3, hname, hblank]

/-- Witness: pressing return on the fresh (empty) session state changes
nothing. -/
theorem blank_submit_not_issued_witness :
    handleKeyEvent ⟨"return", ['\r'], false, false, false⟩ initialAppState =
      .next initialAppState :=
  blank_submit_not_issued ⟨"return", ['\r'], false, false, false⟩
    initialAppState rfl rfl (by decide)

/-- C7: while the help mode is active, every key other than Ctrl+C and
Ctrl+A is swallowed by the help-mode rule of the dispatch cascade: the
buffer, the cursor, the mode and the message state are all unchanged. -/
theorem help_mode_swallows_keys (key : Key) (s : AppState)
    (hmode : s.mode = .help)
    (hc : ¬ (key.ctrl ∧ key.name = "c"))
    (ha : ¬ (key.ctrl ∧ key.name = "a")) :
    handleKeyEvent key s = .next s := by
  simp [handleKeyEvent, hmode, hc, ha]

/-- Witness: the printable key x in help mode changes nothing. -/
theorem help_mode_swallows_keys_witness :
    handleKeyEvent ⟨"x", ['x'], false, false, false⟩
      ⟨.help, ⟨[[]], ⟨0, 0⟩⟩, false, []⟩ =
      .next ⟨.help, ⟨[[]], ⟨0, 0⟩⟩, false, []⟩ :=
  help_mode_swallows_keys ⟨"x", ['x'], false, false, false⟩
    ⟨.help, ⟨[[]], ⟨0, 0⟩⟩, false, []⟩ rfl (by decide) (by decide)

/-- C8: the Ctrl+C rule is the first rule of the cascade, so in every
mode and every state it wins: the dispatch always exits and never
performs an editing action. -/
theorem ctrl_c_always_exits (key : Key) (s : AppState)
    (hctrl : key.ctrl = true) (hname : key.name = "c") :
    handleKeyEvent key s = .exited := by
  simp [handleKeyEvent, hctrl, hname]

/-- Witness: Ctrl+C exits from help mode with a non-empty buffer. -/
theorem ctrl_c_always_exits_witness :
    handleKeyEvent ⟨"c", ['c'], true, false, false⟩
      ⟨.help, ⟨[['h', 'i']], ⟨0, 2⟩⟩, false, []⟩ = .exited :=
  ctrl_c_always_exits ⟨"c", ['c'], true, false, false⟩
    ⟨.help, ⟨[['h', 'i']], ⟨0, 2⟩⟩, false, []⟩ rfl rfl

theorem moveCursor_keeps_lines_row (b : TextBuffer) (d : Direction) :
    (moveCursor b d).lines = b.lines ∧
    (moveCursor b d).cursor.row = b.cursor.row := by
  unfold moveCursor
  cases b.lines.getLast? <;> (dsimp only; split) <;> exact ⟨rfl, rfl⟩

theorem deleteChar_keeps_shape (b : TextBuffer) (hrow : b.cursor.row = 0) :
    (deleteChar b).lines.length = b.lines.length ∧
    (deleteChar b).cursor.row = 0 := by
  unfold deleteChar
  rw [hrow]
  by_cases hcol : b.cursor.column = 0
  · simp [hcol, hrow]
  · simp [hcol, hrow]

theorem insertChar_keeps_shape (b : TextBuffer) (cs : List Char) :
    (insertChar b cs).lines.length = b.lines.length ∧
    (insertChar b cs).cursor.row = b.cursor.row := by
  simp [insertChar]

/-- Single-line session states: one line in the buffer, cursor on it. -/
def GoodApp (s : AppState) : Prop :=
  s.buffer.lines.length = 1 ∧ s.buffer.cursor.row = 0

theorem goodApp_step (key : Key) (s s2 : AppState) (h : GoodApp s)
    (hstep : handleKeyEvent key s = .next s2) : GoodApp s2 := by
  obtain ⟨hlen, hrow⟩ := h
  unfold handleKeyEvent at hstep
  split_ifs at hstep <;> cases hstep <;>
    simp_all [GoodApp, deleteChar_keeps_shape, insertChar_keeps_shape,
      moveCursor_keeps_lines_row, clearTextBuffer, initialBuffer]

theorem goodApp_runKeys (keys : List Key) (s s2 : AppState) (h : GoodApp s)
    (hrun : runKeys keys s = .next s2) : GoodApp s2 := by
  induction keys generalizing s with
  | nil =>
      unfold runKeys at hrun
      cases hrun
      exact h
  | cons k rest ih =>
      unfold runKeys at hrun
      cases hk : handleKeyEvent k s with
      | exited => rw [hk] at hrun; cases hrun
      | next s3 =>
          rw [hk] at hrun
          exact ih s3 (goodApp_step k s s3 h hk) hrun

/-- C9: every session state reachable by dispatching key events from the
initial state keeps exactly one line in the buffer with the cursor on
row zero; in particular the merge branch of `deleteBackward` (column
zero with a positive row) can never fire. -/
theorem reachable_states_single_line (keys : List Key) (s : AppState)
    (h : runKeys keys initialAppState = .next s) :
    s.buffer.lines.length = 1 ∧ s.buffer.cursor.row = 0 ∧
    ¬ (s.buffer.cursor.column = 0 ∧ 0 < s.buffer.cursor.row) := by
  have hg : GoodApp s :=
    goodApp_runKeys keys initialAppState s ⟨rfl, rfl⟩ h
  obtain ⟨hlen, hrow⟩ := hg
  refine ⟨hlen, hrow, ?_⟩
  rintro ⟨-, hpos⟩
  omega

/-- Witness: the state after typing h and pressing backspace. -/
theorem reachable_states_single_line_witness :
    (0 : Nat) < 1 ∧
    runKeys [⟨"h", ['h'], false, false, false⟩,
             ⟨"backspace", ['\x7f'], false, false, false⟩]
        initialAppState =
      .next ⟨.normal, ⟨[[]], ⟨0, 0⟩⟩, false, []⟩ ∧
    ((⟨.normal, ⟨[[]], ⟨0, 0⟩⟩, false, []⟩ : AppState).buffer.lines.length = 1 ∧
      (⟨.normal, ⟨[[]], ⟨0, 0⟩⟩, false, []⟩ : AppState).buffer.cursor.row = 0 ∧
      ¬ ((⟨.normal, ⟨[[]], ⟨0, 0⟩⟩, false, []⟩ : AppState).buffer.cursor.column = 0 ∧
        0 < (⟨.normal, ⟨[[]], ⟨0, 0⟩⟩, false, []⟩ : AppState).buffer.cursor.row)) :=
  ⟨by decide, by decide,
   reachable_states_single_line
     [⟨"h", ['h'], false, false, false⟩,
      ⟨"backspace", ['\x7f'], false, false, false⟩]
     ⟨.normal, ⟨[[]], ⟨0, 0⟩⟩, false, []⟩ (by decide)⟩
